import Mathlib

/-!
Verification of the `chidley` driver (`src/chidley.go`).

The file shallowly embeds the driver's pure helpers and its `main`
control flow. Go strings are Lean `String`s (character level), Go
pointers to values become `Option`, Go panics and out-of-range slice
accesses become `Option.none` results, `log.Fatal` is modelled as a
trace event together with exit status 1, a Go runtime panic as exit
status 2, and a normal return from `main` as exit status 0. The global
mutable flag variables set by `init`/`flag` are gathered into an
explicit `Config` record passed to the embedded functions, and the
external world (command-line arguments, filesystem and extraction
results) into a `World` record, so that `main` becomes a function from
`Config × World` to a trace of observable events plus an exit status.
-/

namespace Chidley

/-- Result kind of `makeSourceReader` (src/chidley.go lines 296-323):
which concrete `Source` implementation is allocated. -/
inductive SourceKind where
  | urlSource
  | stdinSource
  | fileSource
  deriving DecidableEq, Repr

/-- Embedding of `makeSourceReader` (src/chidley.go lines 296-323),
restricted to the choice of source implementation: `UrlSource` when
`url` is set, otherwise `StdinSource` when `standardIn` is set,
otherwise `FileSource`. The subsequent `source.newSource` call is an
external effect whose failure `main` handles separately. -/
def makeSourceReader (url : Bool) (standardIn : Bool) : SourceKind :=
  if url then SourceKind.urlSource
  else if standardIn then SourceKind.stdinSource
  else SourceKind.fileSource

/-- Embedding of `countNumberOfBoolsSet` (src/chidley.go lines 349-357):
the Go loop over a slice of bool pointers, counting those whose target
is true; pointers are embedded as their dereferenced boolean targets. -/
def countNumberOfBoolsSet (a : List Bool) : Nat :=
  a.foldl (fun counter b => if b then counter + 1 else counter) 0

/-- Embedding of `capitalizeFirstLetter` (src/chidley.go lines 341-343):
`strings.ToUpper(s[0:1]) + s[1:]`. On the empty string the Go slice
expression `s[0:1]` is out of range and panics; this is modelled as
`none`. -/
def capitalizeFirstLetter (s : String) : Option String :=
  match s.data with
  | [] => none
  | c :: rest => some (String.mk (c.toUpper :: rest))

/-- Embedding of `lowerFirstLetter` (src/chidley.go lines 345-347):
`strings.ToLower(s[0:1]) + s[1:]`; panics (`none`) on the empty string. -/
def lowerFirstLetter (s : String) : Option String :=
  match s.data with
  | [] => none
  | c :: rest => some (String.mk (c.toLower :: rest))

/-- Embedding of `attributes` (src/chidley.go lines 325-331): starting
from the string containing a colon and a space, append every key of the
`map[string]bool` argument followed by a comma and a space. A Go map
`range` yields the keys in an unspecified iteration order, so the
embedding takes the iteration sequence of keys as its argument. -/
def attributes (atts : List String) : String :=
  atts.foldl (fun ret k => ret ++ k ++ ", ") (String.mk [':', ' '])

/-- Embedding of `indent` (src/chidley.go lines 333-339): a string of
`d` tab characters. -/
def indent (d : Nat) : String :=
  String.mk (List.replicate d '\t')

/-- Modelled from the spec: the Element Node of the Tree Model (spec
section 3) — local name, namespace, and child nodes. The `Node` type
itself is declared in a repository file that is not under `src/`; the
driver in `src/chidley.go` accesses the fields `name`, `space` and
`children` (e.g. lines 154-156, 199, 362-373), so those are the fields
embedded here. Go's `children` collection holds nullable pointers, so a
child is an `Option Node`, listed in iteration order. -/
inductive Node where
  | mk (name : String) (space : String) (children : List (Option Node))

/-- The local name of an element node. -/
def Node.name : Node → String
  | Node.mk n _ _ => n

/-- The namespace of an element node. -/
def Node.space : Node → String
  | Node.mk _ s _ => s

/-- The children of an element node, in iteration order, nil pointers
included. -/
def Node.children : Node → List (Option Node)
  | Node.mk _ _ c => c

/-- Modelled from the spec: section 4.3 — an emitter "combines the
identity's name with configurable prefix/suffix strings to produce a
target-language type name". The definition of `makeType` is in a
repository file not under `src/`. -/
def Node.makeType (n : Node) (prefixStr : String) (suffixStr : String) : String :=
  prefixStr ++ n.name ++ suffixStr

/-- Modelled from the spec: section 4.3, as for `Node.makeType` — the
Java variant used at src/chidley.go line 204, also not under `src/`. -/
def Node.makeJavaType (n : Node) (prefixStr : String) (suffixStr : String) : String :=
  prefixStr ++ n.name ++ suffixStr

/-- The `XMLType` record as populated by the driver (src/chidley.go
lines 153-157 and 370-373): type name, XML local name, capitalized XML
name, and namespace. Its declaration lives outside `src/`; these are
exactly the four fields the driver sets. -/
structure XMLType where
  NameType : String
  XMLName : String
  XMLNameUpper : String
  XMLSpace : String
  deriving DecidableEq, Repr

/-- The non-nil grandchildren of a node in loop order: the inner loop
of `makeOneLevelDown` (src/chidley.go lines 362-369) walks the children
of each non-nil child, skipping nil entries at both levels with
`continue`. -/
def grandchildren (node : Node) : List Node :=
  (node.children.filterMap id).foldr
    (fun np acc => np.children.filterMap id ++ acc) []

/-- The body of `makeOneLevelDown`'s inner loop applied to a list of
(non-nil) nodes in order: build one `XMLType` per node. The call to
`capitalizeFirstLetter` panics on an empty name, which aborts the loop,
so the result is an `Option`. -/
def xmlTypesOf (prefixStr : String) (suffixStr : String) : List Node → Option (List XMLType)
  | [] => some []
  | n :: rest =>
    match capitalizeFirstLetter n.name with
    | none => none
    | some up =>
      match xmlTypesOf prefixStr suffixStr rest with
      | none => none
      | some xs =>
        some ({ NameType := n.makeType prefixStr suffixStr,
                XMLName := n.name,
                XMLNameUpper := up,
                XMLSpace := n.space } :: xs)

/-- Embedding of `makeOneLevelDown` (src/chidley.go lines 359-378): one
`XMLType` per non-nil grandchild of the node, built from the global
name prefix and suffix (here explicit parameters). -/
def makeOneLevelDown (prefixStr : String) (suffixStr : String) (node : Node) : Option (List XMLType) :=
  xmlTypesOf prefixStr suffixStr (grandchildren node)

/-- The `onlyChild` loop of the `writeJava` branch (src/chidley.go
lines 198-203): `onlyChild` starts as nil and is overwritten by every
child in iteration order, so it ends as the last child pointer (or nil
for no children). -/
def javaOnlyChild (children : List (Option Node)) : Option Node :=
  children.foldl (fun _ child => child) none

/-- The output mode selected by the switch in `main` (src/chidley.go
lines 142-208). -/
inductive Mode where
  | codeGen
  | structs
  | java
  deriving DecidableEq, Repr

/-- Observable events of a run of `main`, in program order. File
contents are abstracted to the data handed to the rendering template
(its fields, space-separated); `log.Fatal` carries its message. -/
inductive Event where
  | logConfigError (multiple : Bool)
  | printUsage
  | fatalExit (msg : String)
  | extractRun
  | emitter (m : Mode)
  | removeAllDir (dir : String)
  | mkdirAll (dir : String)
  | visitNode
  | writeFile (path : String) (content : String)
  | writeStdout
  | panicked (reason : String)
  deriving DecidableEq, Repr

/-- The command-line-derived global variables of src/chidley.go
(lines 15-40) that the driver reads, gathered into one record. -/
structure Config where
  codeGenConvert : Bool
  structsToStdout : Bool
  writeJava : Bool
  readFromStandardIn : Bool
  url : Bool
  baseJavaDir : String
  javaAppName : String
  namePrefix : String
  nameSuffix : String

/-- The constant `javaBasePackage` (src/chidley.go line 28). -/
def javaBasePackage : String := "ca.gnewton.chidley"

/-- The constant `mavenJavaBase` (src/chidley.go line 29). -/
def mavenJavaBase : String := "src/main/java"

/-- The global `javaBasePackagePath` (src/chidley.go line 31):
`javaBasePackage` with every dot replaced by a slash
(`strings.Replace(javaBasePackage, ".", "/", -1)`; with a
one-character pattern this is an elementwise character replacement). -/
def javaBasePackagePath : String :=
  String.mk (javaBasePackage.data.map (fun ch => if ch = '.' then '/' else ch))

/-- Embedding of the `outputs` slice (src/chidley.go lines 47-51): the
three output-mode flag pointers, dereferenced. -/
def outputs (cfg : Config) : List Bool :=
  [cfg.codeGenConvert, cfg.structsToStdout, cfg.writeJava]

/-- Embedding of `handleParameters` (src/chidley.go lines 74-85): log a
configuration error when more than one, or none, of the output-mode
flags is set — and return nil (`none`) in every case (line 84). -/
def handleParameters (cfg : Config) : List Event × Option String :=
  let numBoolsSet := countNumberOfBoolsSet (outputs cfg)
  let evs :=
    if numBoolsSet > 1 then [Event.logConfigError true]
    else if numBoolsSet = 0 then [Event.logConfigError false]
    else []
  (evs, none)

/-- The `javaDir` computed at src/chidley.go line 183. -/
def javaDirOf (cfg : Config) : String :=
  cfg.baseJavaDir ++ "/" ++ mavenJavaBase ++ "/" ++ javaBasePackagePath ++ "/" ++ cfg.javaAppName

/-- Embedding of `printPackageInfo` (src/chidley.go lines 213-243):
when the node has a nonempty namespace, create and render
`javaDir/xml/package-info.java`; otherwise do nothing. -/
def printPackageInfo (node : Node) (javaDir : String) (javaPackage : String) : List Event :=
  if node.space ≠ "" then
    [Event.writeFile (javaDir ++ "/xml/package-info.java")
      (node.space ++ " " ++ javaPackage ++ ".xml")]
  else []

/-- Embedding of `printMavenPom` (src/chidley.go lines 258-276): create
and render the pom file at the given path from the application name. -/
def printMavenPom (pomPath : String) (appName : String) : List Event :=
  [Event.writeFile pomPath appName]

/-- Embedding of `printJavaJaxbMain` (src/chidley.go lines 278-294):
create the Main class source file under `javaDir` (via the external
`javaClassWriter`, not under `src/`) and render it from the package
name, the base class name and the source XML filename. -/
def printJavaJaxbMain (rootElementName : String) (javaDir : String) (javaPackage : String)
    (sourceXMLFilename : String) : List Event :=
  [Event.writeFile (javaDir ++ "/Main.java")
    (javaPackage ++ " " ++ rootElementName ++ " " ++ sourceXMLFilename)]

/-- Embedding of the `writeJava` branch of `main` (src/chidley.go lines
181-207): remove the base Java directory, recreate the package
directory tree, visit each child of the root, then write the Main
class (dereferencing `onlyChild` — a nil-pointer panic, exit status 2,
when the root has no children or its last child pointer is nil), the
optional package-info file, and the maven pom. `getFullPath` (not under
`src/`) is abstracted to the source name itself. -/
def writeJavaBranch (cfg : Config) (root : Node) (sourceName : String) : List Event × Nat :=
  let javaPackage := javaBasePackage ++ "." ++ cfg.javaAppName
  let javaDir := javaDirOf cfg
  let pre := Event.removeAllDir cfg.baseJavaDir :: Event.mkdirAll (javaDir ++ "/xml") ::
    root.children.map (fun _ => Event.visitNode)
  match javaOnlyChild root.children with
  | none => (pre ++ [Event.panicked "nil pointer dereference"], 2)
  | some onlyChild =>
    (pre
      ++ printJavaJaxbMain (onlyChild.makeJavaType cfg.namePrefix "") javaDir javaPackage sourceName
      ++ printPackageInfo onlyChild javaDir javaPackage
      ++ printMavenPom (cfg.baseJavaDir ++ "/pom.xml") cfg.javaAppName, 0)

/-- Embedding of the `codeGenConvert` branch of `main` (src/chidley.go
lines 143-170): visit the root (rendering structs in memory), build the
base `XMLType` — `capitalizeFirstLetter(ex.firstNode.name)` panics on
an empty name — then `makeOneLevelDown(ex.root)` (which panics on an
empty grandchild name), and finally execute the template to stdout. -/
def codeGenBranch (cfg : Config) (root : Node) (firstNode : Node) : List Event × Nat :=
  match capitalizeFirstLetter firstNode.name with
  | none => ([Event.visitNode, Event.panicked "slice bounds out of range"], 2)
  | some _ =>
    match makeOneLevelDown cfg.namePrefix cfg.nameSuffix root with
    | none => ([Event.visitNode, Event.panicked "slice bounds out of range"], 2)
    | some _ => ([Event.visitNode, Event.writeStdout], 0)

/-- The results of the external world for one run: the command-line
arguments, the result of `filepath.Abs`, the error of
`source.newSource`, and the outcome of `ex.extract()` together with the
tree it builds (the `Extractor` is defined outside `src/`; `main` only
branches on its error and reads `ex.root` and `ex.firstNode`). -/
structure World where
  args : List String
  absResult : Except String String
  sourceErr : Option String
  extractErr : Option String
  root : Node
  firstNode : Node

/-- The switch statement of `main` (src/chidley.go lines 142-208): the
three output-mode cases are tried in order, first match wins, and a run
with no flag set falls through the switch doing nothing. -/
def selectBranch (cfg : Config) (w : World) (absName : String) : List Event × Nat :=
  if cfg.codeGenConvert then
    (Event.emitter Mode.codeGen :: (codeGenBranch cfg w.root w.firstNode).1,
      (codeGenBranch cfg w.root w.firstNode).2)
  else if cfg.structsToStdout then
    (Event.emitter Mode.structs :: [Event.visitNode, Event.writeStdout], 0)
  else if cfg.writeJava then
    (Event.emitter Mode.java :: (writeJavaBranch cfg w.root absName).1,
      (writeJavaBranch cfg w.root absName).2)
  else ([], 0)

/-- The part of `main` from `makeSourceReader` onwards (src/chidley.go
lines 117-208): a source error is fatal, then `ex.extract()` runs and
an extraction error is fatal, otherwise the switch selects the output
branch. -/
def runFromSource (cfg : Config) (w : World) (absName : String) : List Event × Nat :=
  match w.sourceErr with
  | some e => ((handleParameters cfg).1 ++ [Event.fatalExit ("FATAL ERROR: " ++ e)], 1)
  | none =>
    match w.extractErr with
    | some e =>
      ((handleParameters cfg).1 ++
        [Event.extractRun, Event.fatalExit ("FATAL ERROR: " ++ e)], 1)
    | none =>
      ((handleParameters cfg).1 ++ Event.extractRun :: (selectBranch cfg w absName).1,
        (selectBranch cfg w absName).2)

/-- Embedding of `main` (src/chidley.go lines 87-210) as a function
from the configuration and the external world to the trace of
observable events and the process exit status (normal return 0,
`log.Fatal` 1, runtime panic 2). The error returned by
`handleParameters` is matched as in the source even though it is always
nil; the argument-count check, the `filepath.Abs` call guarded by the
url and standard-input flags, and the source and extraction error
checks follow lines 98-137. -/
def main (cfg : Config) (w : World) : List Event × Nat :=
  match (handleParameters cfg).2 with
  | some _ => ((handleParameters cfg).1 ++ [Event.printUsage], 0)
  | none =>
    if w.args.length ≠ 1 ∧ cfg.readFromStandardIn = false then
      ((handleParameters cfg).1 ++ [Event.printUsage], 0)
    else
      let sourceName := if cfg.readFromStandardIn = false then w.args.headD "" else ""
      match (if cfg.url = false ∧ cfg.readFromStandardIn = false then w.absResult
          else Except.ok sourceName) with
      | Except.error e => ((handleParameters cfg).1 ++ [Event.fatalExit ("FATAL ERROR: " ++ e)], 1)
      | Except.ok absName => runFromSource cfg w absName

/-- Whether an event marks entry into one of the three emitter
branches of the switch in `main`. -/
def isEmitterEvent : Event → Bool
  | Event.emitter _ => true
  | _ => false

/-- Whether an event is a file write. -/
def isWriteEvent : Event → Bool
  | Event.writeFile _ _ => true
  | _ => false

/-- Sample configuration for concrete runs: no output-mode flag set,
input from a file argument; the remaining fields keep the defaults of
src/chidley.go lines 15-40. -/
def cfgNoOutput : Config :=
  ⟨false, false, false, false, false, "java", "jaxb", "Chi", ""⟩

/-- Sample configuration for concrete runs: `-G` (structs to stdout)
with `-c` (read from standard input). -/
def cfgStructsStdin : Config :=
  ⟨false, true, false, true, false, "java", "jaxb", "Chi", ""⟩

/-- Sample configuration for concrete runs: `-J` (write Java) with a
file argument. -/
def cfgJavaFile : Config :=
  ⟨false, false, true, false, false, "java", "jaxb", "Chi", ""⟩

/-- Sample configuration for concrete runs: zero output-mode flags with
input from standard input. -/
def cfgNoOutputStdin : Config :=
  ⟨false, false, false, true, false, "java", "jaxb", "Chi", ""⟩

/-- A sample two-level tree: a root whose single child has one child. -/
def sampleRoot : Node :=
  Node.mk "doc" "" [some (Node.mk "item" "ns" [some (Node.mk "leaf" "" []), none])]

/-- A sample external world: one file argument that resolves, opens and
extracts without error, producing `sampleRoot`. -/
def worldSample : World :=
  ⟨["sample.xml"], Except.ok "/abs/sample.xml", none, none, sampleRoot,
    Node.mk "item" "ns" []⟩

/-- A sample world reading from standard input, extraction succeeding
with `sampleRoot`. -/
def worldStdin : World :=
  ⟨[], Except.ok "", none, none, sampleRoot, Node.mk "item" "ns" []⟩

/-- A sample world with no command-line argument at all. -/
def worldNoArgs : World :=
  ⟨[], Except.ok "", none, none, sampleRoot, Node.mk "item" "ns" []⟩

/-- A sample world reading from standard input whose extraction fails
(for instance on truncated XML with an open tag left on the stack). -/
def worldBadXml : World :=
  ⟨[], Except.ok "", none, some "unexpected EOF", sampleRoot, Node.mk "item" "ns" []⟩

/-- The fold inside `countNumberOfBoolsSet`, run from any starting
counter, adds the number of true entries. -/
theorem countNumberOfBoolsSet_go (a : List Bool) (c : Nat) :
    a.foldl (fun counter b => if b then counter + 1 else counter) c = c + a.count true := by
  induction a generalizing c with
  | nil => simp
  | cons b l ih =>
    cases b
    · simp [List.count_cons, ih]
    · simp [List.count_cons, ih]
      omega

/-- `countNumberOfBoolsSet` counts the true entries of its argument. -/
theorem countNumberOfBoolsSet_eq_count (a : List Bool) :
    countNumberOfBoolsSet a = a.count true := by
  simpa using countNumberOfBoolsSet_go a 0

/-- C4: `handleParameters` logs a configuration error exactly when the
number of set flags among `outputs` (codeGenConvert, structsToStdout,
writeJava) differs from one, and `countNumberOfBoolsSet` returns, for
every list of boolean targets, the number of targets that are true. -/
theorem handleParameters_error_iff :
    (∀ a : List Bool, countNumberOfBoolsSet a = a.count true) ∧
    (∀ cfg : Config,
      (handleParameters cfg).1 ≠ [] ↔ countNumberOfBoolsSet (outputs cfg) ≠ 1) := by
  refine ⟨countNumberOfBoolsSet_eq_count, fun cfg => ?_⟩
  simp only [handleParameters]
  split
  · next h => simp; omega
  · next h =>
    split
    · next h0 => simp; omega
    · next h0 => simp; omega

/-- C7: `makeSourceReader` selects `UrlSource` whenever the url flag is
set (taking precedence over the standard-input flag), `StdinSource`
when only the standard-input flag is set, and `FileSource` when neither
is set. -/
theorem makeSourceReader_selection :
    makeSourceReader true true = SourceKind.urlSource ∧
    makeSourceReader true false = SourceKind.urlSource ∧
    makeSourceReader false true = SourceKind.stdinSource ∧
    makeSourceReader false false = SourceKind.fileSource :=
  ⟨rfl, rfl, rfl, rfl⟩

/-- C8: on a non-empty string, `capitalizeFirstLetter` and
`lowerFirstLetter` return the string with exactly its first character
upper- respectively lower-cased and the remainder unchanged; on the
empty string the Go slice `s[0:1]` is out of range and both functions
panic (modelled as `none`). -/
theorem firstLetter_case_spec (c : Char) (rest : List Char) :
    capitalizeFirstLetter (String.mk (c :: rest)) = some (String.mk (c.toUpper :: rest)) ∧
    lowerFirstLetter (String.mk (c :: rest)) = some (String.mk (c.toLower :: rest)) ∧
    capitalizeFirstLetter "" = none ∧
    lowerFirstLetter "" = none :=
  ⟨rfl, rfl, rfl, rfl⟩

/-- C6, counterexample: rendering an element's attribute set with
`attributes` does depend on the map iteration order — the same
two-element attribute set, iterated in its two orders, renders two
different strings. -/
theorem attributes_order_dependent :
    List.Perm ["a", "b"] ["b", "a"] ∧ attributes ["a", "b"] ≠ attributes ["b", "a"] := by
  constructor
  · exact List.Perm.swap "b" "a" []
  · decide

/-- C6, amended: `attributes` is a deterministic function of the key
iteration sequence, but its output depends on the order in which a Go
map `range` yields the keys; order independence over permutations of
the same attribute set holds only when the set has at most one key. -/
theorem attributes_order_independent_small (l₁ l₂ : List String)
    (hp : List.Perm l₁ l₂) (hl : l₁.length ≤ 1) : attributes l₁ = attributes l₂ := by
  match l₁, hl with
  | [], _ =>
    have : l₂ = [] := hp.symm.eq_nil
    simp [this]
  | [a], _ =>
    have : l₂ = [a] := List.Perm.eq_singleton hp.symm
    simp [this]

/-- C6, amended, witness: a singleton attribute set renders identically
under its (unique) iteration order. -/
theorem attributes_order_independent_small_witness :
    attributes ["x"] = attributes ["x"] :=
  attributes_order_independent_small ["x"] ["x"] (List.Perm.refl _) (by decide)

/-- C9: in the `writeJava` branch, `onlyChild` ends as the last child
pointer iterated (so with several children only the last one is used as
the base element for the generated Main class), it stays nil when the
root has no children, and in that case the branch panics with a nil
pointer dereference (exit status 2) instead of writing the Main class. -/
theorem writeJava_onlyChild_spec :
    (∀ (l : List (Option Node)) (c : Option Node), javaOnlyChild (l ++ [c]) = c) ∧
    (javaOnlyChild ([] : List (Option Node)) = none) ∧
    (∀ (cfg : Config) (nm sp sourceName : String),
      (writeJavaBranch cfg (Node.mk nm sp []) sourceName).1.getLast? =
        some (Event.panicked "nil pointer dereference") ∧
      (writeJavaBranch cfg (Node.mk nm sp []) sourceName).2 = 2) ∧
    (∀ (cfg : Config) (nm sp sourceName : String) (l : List (Option Node)) (c : Node),
      Event.writeFile (javaDirOf cfg ++ "/Main.java")
          (javaBasePackage ++ "." ++ cfg.javaAppName ++ " " ++
            c.makeJavaType cfg.namePrefix "" ++ " " ++ sourceName)
        ∈ (writeJavaBranch cfg (Node.mk nm sp (l ++ [some c])) sourceName).1) := by
  have hlast : ∀ (l : List (Option Node)) (c : Option Node), javaOnlyChild (l ++ [c]) = c := by
    intro l c
    simp [javaOnlyChild, List.foldl_append]
  refine ⟨hlast, rfl, ?_, ?_⟩
  · intro cfg nm sp sourceName
    exact ⟨rfl, rfl⟩
  · intro cfg nm sp sourceName l c
    simp only [writeJavaBranch, Node.children, hlast, printJavaJaxbMain]
    simp [javaDirOf]

/-- The loop body of `makeOneLevelDown` over a list of non-nil nodes
with nonempty names succeeds and produces, in order, one `XMLType` per
node with the four fields as the source builds them. -/
theorem xmlTypesOf_spec (prefixStr suffixStr : String) (gs : List Node)
    (h : ∀ n ∈ gs, n.name.data ≠ []) :
    ∃ l, xmlTypesOf prefixStr suffixStr gs = some l ∧
      List.Forall₂ (fun (x : XMLType) (n : Node) =>
        x.XMLName = n.name ∧ x.XMLSpace = n.space ∧
        x.NameType = n.makeType prefixStr suffixStr ∧
        capitalizeFirstLetter n.name = some x.XMLNameUpper) l gs := by
  induction gs with
  | nil => exact ⟨[], rfl, List.Forall₂.nil⟩
  | cons n rest ih =>
    obtain ⟨l, hl, hf⟩ := ih (fun m hm => h m (List.mem_cons_of_mem n hm))
    have hn : n.name.data ≠ [] := h n (List.mem_cons_self n rest)
    obtain ⟨c, cs, hcs⟩ : ∃ c cs, n.name.data = c :: cs := by
      cases hd : n.name.data with
      | nil => exact absurd hd hn
      | cons c cs => exact ⟨c, cs, rfl⟩
    have hup : capitalizeFirstLetter n.name = some (String.mk (c.toUpper :: cs)) := by
      simp [capitalizeFirstLetter, hcs]
    refine ⟨{ NameType := n.makeType prefixStr suffixStr, XMLName := n.name,
              XMLNameUpper := String.mk (c.toUpper :: cs), XMLSpace := n.space } :: l, ?_, ?_⟩
    · simp [xmlTypesOf, hup, hl]
    · exact List.Forall₂.cons ⟨rfl, rfl, rfl, hup⟩ hf

/-- C10: on a node all of whose non-nil grandchildren have nonempty
names, `makeOneLevelDown` returns exactly one `XMLType` per non-nil
grandchild (children of the node's non-nil children, nil entries
skipped), in order, with `XMLName` the grandchild's name, `XMLNameUpper`
that name with its first letter capitalized, `XMLSpace` its namespace,
and `NameType` built from the name prefix and suffix. -/
theorem makeOneLevelDown_per_grandchild (prefixStr suffixStr : String) (node : Node)
    (h : ∀ n ∈ grandchildren node, n.name.data ≠ []) :
    ∃ l, makeOneLevelDown prefixStr suffixStr node = some l ∧
      List.Forall₂ (fun (x : XMLType) (n : Node) =>
        x.XMLName = n.name ∧ x.XMLSpace = n.space ∧
        x.NameType = n.makeType prefixStr suffixStr ∧
        capitalizeFirstLetter n.name = some x.XMLNameUpper) l (grandchildren node) :=
  xmlTypesOf_spec prefixStr suffixStr (grandchildren node) h

/-- The error value returned by `handleParameters` is always nil. -/
theorem handleParameters_snd (cfg : Config) : (handleParameters cfg).2 = none := rfl

/-- Every event logged by `handleParameters` is a configuration-error
log line. -/
theorem handleParameters_events (cfg : Config) :
    ∀ ev ∈ (handleParameters cfg).1, ∃ b, ev = Event.logConfigError b := by
  intro ev hev
  simp only [handleParameters] at hev
  split at hev
  · exact ⟨true, by simpa using hev⟩
  · split at hev
    · exact ⟨false, by simpa using hev⟩
    · simp at hev

/-- Every event of the `codeGenConvert` branch is a visit, a panic, or
a write to stdout. -/
theorem codeGenBranch_events (cfg : Config) (root : Node) (firstNode : Node) :
    ∀ ev ∈ (codeGenBranch cfg root firstNode).1,
      ev = Event.visitNode ∨ (∃ r, ev = Event.panicked r) ∨ ev = Event.writeStdout := by
  intro ev hev
  simp only [codeGenBranch] at hev
  cases hcap : capitalizeFirstLetter firstNode.name with
  | none =>
    simp only [hcap] at hev
    rcases List.mem_cons.mp hev with h | h
    · exact Or.inl h
    · exact Or.inr (Or.inl ⟨_, List.eq_of_mem_singleton h⟩)
  | some up =>
    simp only [hcap] at hev
    cases hmk : makeOneLevelDown cfg.namePrefix cfg.nameSuffix root with
    | none =>
      simp only [hmk] at hev
      rcases List.mem_cons.mp hev with h | h
      · exact Or.inl h
      · exact Or.inr (Or.inl ⟨_, List.eq_of_mem_singleton h⟩)
    | some xs =>
      simp only [hmk] at hev
      rcases List.mem_cons.mp hev with h | h
      · exact Or.inl h
      · exact Or.inr (Or.inr (List.eq_of_mem_singleton h))

/-- The `writeJava` branch always begins by removing the base Java
directory and recreating the package directory tree. -/
theorem writeJavaBranch_shape (cfg : Config) (root : Node) (sn : String) :
    ∃ tail, (writeJavaBranch cfg root sn).1 =
      Event.removeAllDir cfg.baseJavaDir ::
        Event.mkdirAll (javaDirOf cfg ++ "/xml") :: tail := by
  simp only [writeJavaBranch]
  cases javaOnlyChild root.children <;> simp

/-- No event of the `writeJava` branch is an emitter-entry event, a
stdout write, an extraction marker, or a usage message. -/
theorem writeJavaBranch_no_emitter (cfg : Config) (root : Node) (sn : String) :
    ∀ m, Event.emitter m ∉ (writeJavaBranch cfg root sn).1 := by
  intro m hmem
  simp only [writeJavaBranch] at hmem
  cases hoc : javaOnlyChild root.children with
  | none =>
    simp only [hoc] at hmem
    simp at hmem
  | some c =>
    simp only [hoc, printJavaJaxbMain, printPackageInfo, printMavenPom] at hmem
    by_cases hsp : c.space ≠ "" <;> simp [hsp] at hmem

/-- The four possible outcomes of the switch statement, with the flag
values that select each. -/
theorem selectBranch_cases (cfg : Config) (w : World) (absName : String) :
    cfg.codeGenConvert = true ∧
        selectBranch cfg w absName =
          (Event.emitter Mode.codeGen :: (codeGenBranch cfg w.root w.firstNode).1,
            (codeGenBranch cfg w.root w.firstNode).2)
      ∨ cfg.codeGenConvert = false ∧ cfg.structsToStdout = true ∧
          selectBranch cfg w absName =
            ([Event.emitter Mode.structs, Event.visitNode, Event.writeStdout], 0)
      ∨ cfg.codeGenConvert = false ∧ cfg.structsToStdout = false ∧ cfg.writeJava = true ∧
          selectBranch cfg w absName =
            (Event.emitter Mode.java :: (writeJavaBranch cfg w.root absName).1,
              (writeJavaBranch cfg w.root absName).2)
      ∨ cfg.codeGenConvert = false ∧ cfg.structsToStdout = false ∧ cfg.writeJava = false ∧
          selectBranch cfg w absName = ([], 0) := by
  cases hcg : cfg.codeGenConvert with
  | true => exact Or.inl ⟨rfl, by simp [selectBranch, hcg]⟩
  | false =>
    cases hst : cfg.structsToStdout with
    | true => exact Or.inr (Or.inl ⟨rfl, rfl, by simp [selectBranch, hcg, hst]⟩)
    | false =>
      cases hwj : cfg.writeJava with
      | true =>
        exact Or.inr (Or.inr (Or.inl ⟨rfl, rfl, rfl, by simp [selectBranch, hcg, hst, hwj]⟩))
      | false =>
        exact Or.inr (Or.inr (Or.inr ⟨rfl, rfl, rfl, by simp [selectBranch, hcg, hst, hwj]⟩))

/-- The three possible outcomes of the run once the source reader has
been made: fatal source error, fatal extraction error, or successful
extraction followed by the selected branch. -/
theorem runFromSource_shape (cfg : Config) (w : World) (absName : String) :
    (∃ msg, runFromSource cfg w absName =
        ((handleParameters cfg).1 ++ [Event.fatalExit msg], 1))
      ∨ (∃ e, w.extractErr = some e ∧ runFromSource cfg w absName =
          ((handleParameters cfg).1 ++
            [Event.extractRun, Event.fatalExit ("FATAL ERROR: " ++ e)], 1))
      ∨ (w.extractErr = none ∧ runFromSource cfg w absName =
          ((handleParameters cfg).1 ++ Event.extractRun :: (selectBranch cfg w absName).1,
            (selectBranch cfg w absName).2)) := by
  cases hsrc : w.sourceErr with
  | some e => exact Or.inl ⟨"FATAL ERROR: " ++ e, by simp [runFromSource, hsrc]⟩
  | none =>
    cases hext : w.extractErr with
    | some e => exact Or.inr (Or.inl ⟨e, rfl, by simp [runFromSource, hsrc, hext]⟩)
    | none => exact Or.inr (Or.inr ⟨rfl, by simp [runFromSource, hsrc, hext]⟩)

/-- Case analysis of the embedded `main`: a usage message, a fatal exit
before the source reader is made, or the run from the source reader. -/
theorem main_shape (cfg : Config) (w : World) :
    main cfg w = ((handleParameters cfg).1 ++ [Event.printUsage], 0)
      ∨ (∃ msg, main cfg w = ((handleParameters cfg).1 ++ [Event.fatalExit msg], 1))
      ∨ (∃ absName, main cfg w = runFromSource cfg w absName) := by
  by_cases hargs : (w.args.length ≠ 1 ∧ cfg.readFromStandardIn = false)
  · exact Or.inl (by simp [main, handleParameters_snd, hargs])
  · by_cases hcond : (cfg.url = false ∧ cfg.readFromStandardIn = false)
    · obtain ⟨hurl, hstdin⟩ := hcond
      have hlen : w.args.length = 1 := by
        by_contra hne
        exact hargs ⟨hne, hstdin⟩
      cases habs : w.absResult with
      | error e =>
        exact Or.inr (Or.inl ⟨"FATAL ERROR: " ++ e,
          by simp [main, handleParameters_snd, hlen, hurl, hstdin, habs]⟩)
      | ok absName =>
        exact Or.inr (Or.inr ⟨absName,
          by simp [main, handleParameters_snd, hlen, hurl, hstdin, habs]⟩)
    · exact Or.inr (Or.inr ⟨if cfg.readFromStandardIn = false then w.args.headD "" else "",
        by simp [main, handleParameters_snd, hargs, hcond]⟩)

/-- C10, witness: on the sample tree every grandchild name is nonempty
and `makeOneLevelDown` produces one matching `XMLType` per grandchild. -/
theorem makeOneLevelDown_per_grandchild_witness :
    (∀ n ∈ grandchildren sampleRoot, n.name.data ≠ []) ∧
    ∃ l, makeOneLevelDown "Chi" "" sampleRoot = some l ∧
      List.Forall₂ (fun (x : XMLType) (n : Node) =>
        x.XMLName = n.name ∧ x.XMLSpace = n.space ∧
        x.NameType = n.makeType "Chi" "" ∧
        capitalizeFirstLetter n.name = some x.XMLNameUpper) l (grandchildren sampleRoot) :=
  ⟨by decide, makeOneLevelDown_per_grandchild "Chi" "" sampleRoot (by decide)⟩

/-- An event of an event list prefixed by the `handleParameters` log is
either a configuration-error line or an event of the suffix. -/
theorem mem_hp_append {cfg : Config} {l : List Event} {ev : Event}
    (h : ev ∈ (handleParameters cfg).1 ++ l) :
    (∃ b, ev = Event.logConfigError b) ∨ ev ∈ l := by
  rcases List.mem_append.mp h with h1 | h1
  · exact Or.inl (handleParameters_events cfg ev h1)
  · exact Or.inr h1

/-- An event is classified as an emitter event exactly when it is the
entry of one of the three output branches. -/
theorem isEmitterEvent_eq_true {ev : Event} :
    isEmitterEvent ev = true ↔ ∃ m, ev = Event.emitter m := by
  cases ev <;> simp [isEmitterEvent]

/-- Evaluation of the emitter-event classifier on the constructors that
occur in run traces. -/
theorem isEmitterEvent_emitter (m : Mode) : isEmitterEvent (Event.emitter m) = true := rfl

/-- A usage message is not an emitter event. -/
theorem isEmitterEvent_printUsage : isEmitterEvent Event.printUsage = false := rfl

/-- A fatal-exit event is not an emitter event. -/
theorem isEmitterEvent_fatalExit (msg : String) :
    isEmitterEvent (Event.fatalExit msg) = false := rfl

/-- The extraction marker is not an emitter event. -/
theorem isEmitterEvent_extractRun : isEmitterEvent Event.extractRun = false := rfl

/-- A visit event is not an emitter event. -/
theorem isEmitterEvent_visitNode : isEmitterEvent Event.visitNode = false := rfl

/-- A stdout write is not an emitter event. -/
theorem isEmitterEvent_writeStdout : isEmitterEvent Event.writeStdout = false := rfl

/-- The configuration-error log contains no emitter event. -/
theorem hp_countP_emitter (cfg : Config) :
    ((handleParameters cfg).1.countP isEmitterEvent) = 0 := by
  rw [List.countP_eq_zero]
  intro ev hev
  obtain ⟨b, hb⟩ := handleParameters_events cfg ev hev
  subst hb
  simp [isEmitterEvent]

/-- The `codeGenConvert` branch trace contains no emitter event. -/
theorem codeGenBranch_countP_emitter (cfg : Config) (root : Node) (firstNode : Node) :
    ((codeGenBranch cfg root firstNode).1.countP isEmitterEvent) = 0 := by
  rw [List.countP_eq_zero]
  intro ev hev hp
  obtain ⟨m, rfl⟩ := isEmitterEvent_eq_true.mp hp
  rcases codeGenBranch_events cfg root firstNode _ hev with h | ⟨r, h⟩ | h <;>
    exact Event.noConfusion h

/-- The `writeJava` branch trace contains no emitter event. -/
theorem writeJavaBranch_countP_emitter (cfg : Config) (root : Node) (sn : String) :
    ((writeJavaBranch cfg root sn).1.countP isEmitterEvent) = 0 := by
  rw [List.countP_eq_zero]
  intro ev hev hp
  obtain ⟨m, rfl⟩ := isEmitterEvent_eq_true.mp hp
  exact writeJavaBranch_no_emitter cfg root sn m hev

/-- The `codeGenConvert` branch trace contains no file write. -/
theorem codeGenBranch_no_write (cfg : Config) (root : Node) (firstNode : Node) :
    ∀ p c, Event.writeFile p c ∉ (codeGenBranch cfg root firstNode).1 := by
  intro p c hmem
  rcases codeGenBranch_events cfg root firstNode _ hmem with h | ⟨r, h⟩ | h <;>
    exact Event.noConfusion h

/-- C2: whenever extraction fails, no emitter branch is entered, no
file is written, nothing is written to stdout, and if extraction was
reached the run ends with the fatal error message and exit status 1 —
the partially-built tree is never emitted. -/
theorem extract_failure_no_emission (cfg : Config) (w : World) (e : String)
    (h : w.extractErr = some e) :
    (∀ m, Event.emitter m ∉ (main cfg w).1) ∧
    (∀ p c, Event.writeFile p c ∉ (main cfg w).1) ∧
    Event.writeStdout ∉ (main cfg w).1 ∧
    (Event.extractRun ∈ (main cfg w).1 →
      Event.fatalExit ("FATAL ERROR: " ++ e) ∈ (main cfg w).1 ∧ (main cfg w).2 = 1) := by
  rcases main_shape cfg w with hm | ⟨msg, hm⟩ | ⟨absName, hm⟩
  · rw [hm]
    refine ⟨?_, ?_, ?_, ?_⟩
    · intro m hmem
      rcases mem_hp_append hmem with ⟨b, hb⟩ | h1
      · exact Event.noConfusion hb
      · simp at h1
    · intro p c hmem
      rcases mem_hp_append hmem with ⟨b, hb⟩ | h1
      · exact Event.noConfusion hb
      · simp at h1
    · intro hmem
      rcases mem_hp_append hmem with ⟨b, hb⟩ | h1
      · exact Event.noConfusion hb
      · simp at h1
    · intro hmem
      rcases mem_hp_append hmem with ⟨b, hb⟩ | h1
      · exact Event.noConfusion hb
      · simp at h1
  · rw [hm]
    refine ⟨?_, ?_, ?_, ?_⟩
    · intro m hmem
      rcases mem_hp_append hmem with ⟨b, hb⟩ | h1
      · exact Event.noConfusion hb
      · simp at h1
    · intro p c hmem
      rcases mem_hp_append hmem with ⟨b, hb⟩ | h1
      · exact Event.noConfusion hb
      · simp at h1
    · intro hmem
      rcases mem_hp_append hmem with ⟨b, hb⟩ | h1
      · exact Event.noConfusion hb
      · simp at h1
    · intro hmem
      rcases mem_hp_append hmem with ⟨b, hb⟩ | h1
      · exact Event.noConfusion hb
      · simp at h1
  · rcases runFromSource_shape cfg w absName with ⟨msg, hr⟩ | ⟨e2, he2, hr⟩ | ⟨he2, hr⟩
    · rw [hm, hr]
      refine ⟨?_, ?_, ?_, ?_⟩
      · intro m hmem
        rcases mem_hp_append hmem with ⟨b, hb⟩ | h1
        · exact Event.noConfusion hb
        · simp at h1
      · intro p c hmem
        rcases mem_hp_append hmem with ⟨b, hb⟩ | h1
        · exact Event.noConfusion hb
        · simp at h1
      · intro hmem
        rcases mem_hp_append hmem with ⟨b, hb⟩ | h1
        · exact Event.noConfusion hb
        · simp at h1
      · intro hmem
        rcases mem_hp_append hmem with ⟨b, hb⟩ | h1
        · exact Event.noConfusion hb
        · simp at h1
    · have he : e2 = e := by
        rw [h] at he2
        exact (Option.some.inj he2).symm
      subst he
      rw [hm, hr]
      refine ⟨?_, ?_, ?_, ?_⟩
      · intro m hmem
        rcases mem_hp_append hmem with ⟨b, hb⟩ | h1
        · exact Event.noConfusion hb
        · simp at h1
      · intro p c hmem
        rcases mem_hp_append hmem with ⟨b, hb⟩ | h1
        · exact Event.noConfusion hb
        · simp at h1
      · intro hmem
        rcases mem_hp_append hmem with ⟨b, hb⟩ | h1
        · exact Event.noConfusion hb
        · simp at h1
      · intro _
        exact ⟨by simp, rfl⟩
    · rw [h] at he2
      exact Option.noConfusion he2

/-- C2, witness: a run whose extraction fails with message
"unexpected EOF" satisfies the conclusion at a concrete input. -/
theorem extract_failure_no_emission_witness :
    worldBadXml.extractErr = some "unexpected EOF" ∧
    ((∀ m, Event.emitter m ∉ (main cfgStructsStdin worldBadXml).1) ∧
     (∀ p c, Event.writeFile p c ∉ (main cfgStructsStdin worldBadXml).1) ∧
     Event.writeStdout ∉ (main cfgStructsStdin worldBadXml).1 ∧
     (Event.extractRun ∈ (main cfgStructsStdin worldBadXml).1 →
       Event.fatalExit ("FATAL ERROR: " ++ "unexpected EOF") ∈
         (main cfgStructsStdin worldBadXml).1 ∧
       (main cfgStructsStdin worldBadXml).2 = 1)) :=
  ⟨rfl, extract_failure_no_emission cfgStructsStdin worldBadXml "unexpected EOF" rfl⟩

/-- C3, counterexample: a run with zero output-mode flags set — which
the configuration check logs but fails to stop — consumes the input
(extraction runs), completes with exit status 0, and zero emitters run,
not exactly one per invocation. -/
theorem zero_emitters_complete_run :
    Event.extractRun ∈ (main cfgNoOutputStdin worldStdin).1 ∧
    (main cfgNoOutputStdin worldStdin).2 = 0 ∧
    (main cfgNoOutputStdin worldStdin).1.countP isEmitterEvent = 0 := by
  decide

/-- C3, amended: at most one emitter branch runs per invocation (the
three output-mode cases of the switch are mutually exclusive); an
emitter is entered only after extraction returned without error, with
the whole extraction preceding it in the trace; and exactly one emitter
runs whenever exactly one output-mode flag is set and extraction was
reached and succeeded — with zero flags set the run proceeds (because
`handleParameters` returns nil) but no emitter runs. -/
theorem emitter_unique_after_extract (cfg : Config) (w : World) :
    ((main cfg w).1.countP isEmitterEvent ≤ 1) ∧
    (∀ m, Event.emitter m ∈ (main cfg w).1 →
      w.extractErr = none ∧
      ∃ pre post, (main cfg w).1 = pre ++ Event.extractRun :: post ∧
        Event.emitter m ∈ post ∧ pre.countP isEmitterEvent = 0) ∧
    (countNumberOfBoolsSet (outputs cfg) = 1 → w.extractErr = none →
      Event.extractRun ∈ (main cfg w).1 →
      (main cfg w).1.countP isEmitterEvent = 1) := by
  rcases main_shape cfg w with hm | ⟨msg, hm⟩ | ⟨absName, hm⟩
  · rw [hm]
    refine ⟨?_, ?_, ?_⟩
    · simp [List.countP_append, hp_countP_emitter, List.countP_cons, isEmitterEvent_emitter,
            isEmitterEvent_extractRun, isEmitterEvent_printUsage, isEmitterEvent_fatalExit,
            isEmitterEvent_visitNode, isEmitterEvent_writeStdout]
    · intro m hmem
      rcases mem_hp_append hmem with ⟨b, hb⟩ | h1
      · exact Event.noConfusion hb
      · simp at h1
    · intro _ _ hmem
      rcases mem_hp_append hmem with ⟨b, hb⟩ | h1
      · exact Event.noConfusion hb
      · simp at h1
  · rw [hm]
    refine ⟨?_, ?_, ?_⟩
    · simp [List.countP_append, hp_countP_emitter, List.countP_cons, isEmitterEvent_emitter,
            isEmitterEvent_extractRun, isEmitterEvent_printUsage, isEmitterEvent_fatalExit,
            isEmitterEvent_visitNode, isEmitterEvent_writeStdout]
    · intro m hmem
      rcases mem_hp_append hmem with ⟨b, hb⟩ | h1
      · exact Event.noConfusion hb
      · simp at h1
    · intro _ _ hmem
      rcases mem_hp_append hmem with ⟨b, hb⟩ | h1
      · exact Event.noConfusion hb
      · simp at h1
  · rcases runFromSource_shape cfg w absName with ⟨msg, hr⟩ | ⟨e2, he2, hr⟩ | ⟨he2, hr⟩
    · rw [hm, hr]
      refine ⟨?_, ?_, ?_⟩
      · simp [List.countP_append, hp_countP_emitter, List.countP_cons, isEmitterEvent_emitter,
            isEmitterEvent_extractRun, isEmitterEvent_printUsage, isEmitterEvent_fatalExit,
            isEmitterEvent_visitNode, isEmitterEvent_writeStdout]
      · intro m hmem
        rcases mem_hp_append hmem with ⟨b, hb⟩ | h1
        · exact Event.noConfusion hb
        · simp at h1
      · intro _ _ hmem
        rcases mem_hp_append hmem with ⟨b, hb⟩ | h1
        · exact Event.noConfusion hb
        · simp at h1
    · rw [hm, hr]
      refine ⟨?_, ?_, ?_⟩
      · simp [List.countP_append, hp_countP_emitter, List.countP_cons, isEmitterEvent_emitter,
            isEmitterEvent_extractRun, isEmitterEvent_printUsage, isEmitterEvent_fatalExit,
            isEmitterEvent_visitNode, isEmitterEvent_writeStdout]
      · intro m hmem
        rcases mem_hp_append hmem with ⟨b, hb⟩ | h1
        · exact Event.noConfusion hb
        · simp at h1
      · intro _ hnone _
        rw [hnone] at he2
        exact Option.noConfusion he2
    · rw [hm, hr]
      rcases selectBranch_cases cfg w absName with ⟨hcg, hsel⟩ | ⟨hcg, hst, hsel⟩ |
        ⟨hcg, hst, hwj, hsel⟩ | ⟨hcg, hst, hwj, hsel⟩
      all_goals rw [hsel]
      · refine ⟨?_, ?_, ?_⟩
        · simp [List.countP_append, hp_countP_emitter, List.countP_cons,
            codeGenBranch_countP_emitter, isEmitterEvent_emitter, isEmitterEvent_extractRun]
        · intro m hmem
          refine ⟨he2, (handleParameters cfg).1, _, rfl, ?_, hp_countP_emitter cfg⟩
          rcases mem_hp_append hmem with ⟨b, hb⟩ | h1
          · exact Event.noConfusion hb
          · rcases List.mem_cons.mp h1 with h2 | h2
            · exact Event.noConfusion h2
            · exact h2
        · intro _ _ _
          simp [List.countP_append, hp_countP_emitter, List.countP_cons,
            codeGenBranch_countP_emitter, isEmitterEvent_emitter, isEmitterEvent_extractRun]
      · refine ⟨?_, ?_, ?_⟩
        · simp [List.countP_append, hp_countP_emitter, List.countP_cons, isEmitterEvent_emitter,
            isEmitterEvent_extractRun, isEmitterEvent_printUsage, isEmitterEvent_fatalExit,
            isEmitterEvent_visitNode, isEmitterEvent_writeStdout]
        · intro m hmem
          refine ⟨he2, (handleParameters cfg).1, _, rfl, ?_, hp_countP_emitter cfg⟩
          rcases mem_hp_append hmem with ⟨b, hb⟩ | h1
          · exact Event.noConfusion hb
          · rcases List.mem_cons.mp h1 with h2 | h2
            · exact Event.noConfusion h2
            · exact h2
        · intro _ _ _
          simp [List.countP_append, hp_countP_emitter, List.countP_cons, isEmitterEvent_emitter,
            isEmitterEvent_extractRun, isEmitterEvent_printUsage, isEmitterEvent_fatalExit,
            isEmitterEvent_visitNode, isEmitterEvent_writeStdout]
      · refine ⟨?_, ?_, ?_⟩
        · simp [List.countP_append, hp_countP_emitter, List.countP_cons,
            writeJavaBranch_countP_emitter, isEmitterEvent_emitter, isEmitterEvent_extractRun]
        · intro m hmem
          refine ⟨he2, (handleParameters cfg).1, _, rfl, ?_, hp_countP_emitter cfg⟩
          rcases mem_hp_append hmem with ⟨b, hb⟩ | h1
          · exact Event.noConfusion hb
          · rcases List.mem_cons.mp h1 with h2 | h2
            · exact Event.noConfusion h2
            · exact h2
        · intro _ _ _
          simp [List.countP_append, hp_countP_emitter, List.countP_cons,
            writeJavaBranch_countP_emitter, isEmitterEvent_emitter, isEmitterEvent_extractRun]
      · refine ⟨?_, ?_, ?_⟩
        · simp [List.countP_append, hp_countP_emitter, List.countP_cons, isEmitterEvent_emitter,
            isEmitterEvent_extractRun, isEmitterEvent_printUsage, isEmitterEvent_fatalExit,
            isEmitterEvent_visitNode, isEmitterEvent_writeStdout]
        · intro m hmem
          rcases mem_hp_append hmem with ⟨b, hb⟩ | h1
          · exact Event.noConfusion hb
          · rcases List.mem_cons.mp h1 with h2 | h2
            · exact Event.noConfusion h2
            · simp at h2
        · intro hcount _ _
          rw [countNumberOfBoolsSet_eq_count] at hcount
          simp [outputs, hcg, hst, hwj] at hcount

/-- C3, amended, witness: with exactly the structs-to-stdout flag set
and a successful extraction from standard input, exactly one emitter
runs. -/
theorem emitter_unique_after_extract_witness :
    countNumberOfBoolsSet (outputs cfgStructsStdin) = 1 ∧
    worldStdin.extractErr = none ∧
    Event.extractRun ∈ (main cfgStructsStdin worldStdin).1 ∧
    (main cfgStructsStdin worldStdin).1.countP isEmitterEvent = 1 :=
  ⟨by decide, rfl, by decide,
    (emitter_unique_after_extract cfgStructsStdin worldStdin).2.2 (by decide) rfl (by decide)⟩

/-- C5: whenever the run writes a file, the trace first removed the
base Java directory and recreated the package directory tree under it,
with no file write, directory creation, or directory removal earlier in
the trace — the base output directory is cleared and recreated before
any generated source or build-descriptor file is written. -/
theorem java_dir_cleared_before_writes (cfg : Config) (w : World) (p c : String)
    (hw : Event.writeFile p c ∈ (main cfg w).1) :
    ∃ pre post, (main cfg w).1 =
        pre ++ Event.removeAllDir cfg.baseJavaDir ::
          Event.mkdirAll (javaDirOf cfg ++ "/xml") :: post ∧
      Event.writeFile p c ∈ post ∧
      (∀ q r, Event.writeFile q r ∉ pre) ∧
      (∀ d, Event.mkdirAll d ∉ pre) ∧
      (∀ d, Event.removeAllDir d ∉ pre) := by
  rcases main_shape cfg w with hm | ⟨msg, hm⟩ | ⟨absName, hm⟩
  · rw [hm] at hw
    rcases mem_hp_append hw with ⟨b, hb⟩ | h1
    · exact Event.noConfusion hb
    · simp at h1
  · rw [hm] at hw
    rcases mem_hp_append hw with ⟨b, hb⟩ | h1
    · exact Event.noConfusion hb
    · simp at h1
  · rcases runFromSource_shape cfg w absName with ⟨msg, hr⟩ | ⟨e2, he2, hr⟩ | ⟨he2, hr⟩
    · rw [hm, hr] at hw
      rcases mem_hp_append hw with ⟨b, hb⟩ | h1
      · exact Event.noConfusion hb
      · simp at h1
    · rw [hm, hr] at hw
      rcases mem_hp_append hw with ⟨b, hb⟩ | h1
      · exact Event.noConfusion hb
      · simp at h1
    · rcases selectBranch_cases cfg w absName with ⟨hcg, hsel⟩ | ⟨hcg, hst, hsel⟩ |
        ⟨hcg, hst, hwj, hsel⟩ | ⟨hcg, hst, hwj, hsel⟩
      · rw [hm, hr, hsel] at hw
        rcases mem_hp_append hw with ⟨b, hb⟩ | h1
        · exact Event.noConfusion hb
        · rcases List.mem_cons.mp h1 with h2 | h2
          · exact Event.noConfusion h2
          · rcases List.mem_cons.mp h2 with h3 | h3
            · exact Event.noConfusion h3
            · exact absurd h3 (codeGenBranch_no_write cfg w.root w.firstNode p c)
      · rw [hm, hr, hsel] at hw
        rcases mem_hp_append hw with ⟨b, hb⟩ | h1
        · exact Event.noConfusion hb
        · simp at h1
      · obtain ⟨tail, htail⟩ := writeJavaBranch_shape cfg w.root absName
        rw [hm, hr, hsel, htail] at hw ⊢
        refine ⟨(handleParameters cfg).1 ++ [Event.extractRun, Event.emitter Mode.java],
          tail, by simp, ?_, ?_, ?_, ?_⟩
        · rcases mem_hp_append hw with ⟨b, hb⟩ | h1
          · exact Event.noConfusion hb
          · rcases List.mem_cons.mp h1 with h2 | h2
            · exact Event.noConfusion h2
            · rcases List.mem_cons.mp h2 with h3 | h3
              · exact Event.noConfusion h3
              · rcases List.mem_cons.mp h3 with h4 | h4
                · exact Event.noConfusion h4
                · rcases List.mem_cons.mp h4 with h5 | h5
                  · exact Event.noConfusion h5
                  · exact h5
        · intro q r hmem
          rcases mem_hp_append hmem with ⟨b, hb⟩ | h1
          · exact Event.noConfusion hb
          · simp at h1
        · intro d hmem
          rcases mem_hp_append hmem with ⟨b, hb⟩ | h1
          · exact Event.noConfusion hb
          · simp at h1
        · intro d hmem
          rcases mem_hp_append hmem with ⟨b, hb⟩ | h1
          · exact Event.noConfusion hb
          · simp at h1
      · rw [hm, hr, hsel] at hw
        rcases mem_hp_append hw with ⟨b, hb⟩ | h1
        · exact Event.noConfusion hb
        · simp at h1

/-- C5, witness: the Java-mode sample run writes the maven pom file,
and the conclusion holds for it at that concrete input. -/
theorem java_dir_cleared_before_writes_witness :
    Event.writeFile "java/pom.xml" "jaxb" ∈ (main cfgJavaFile worldSample).1 ∧
    ∃ pre post, (main cfgJavaFile worldSample).1 =
        pre ++ Event.removeAllDir cfgJavaFile.baseJavaDir ::
          Event.mkdirAll (javaDirOf cfgJavaFile ++ "/xml") :: post ∧
      Event.writeFile "java/pom.xml" "jaxb" ∈ post ∧
      (∀ q r, Event.writeFile q r ∉ pre) ∧
      (∀ d, Event.mkdirAll d ∉ pre) ∧
      (∀ d, Event.removeAllDir d ∉ pre) :=
  ⟨by decide,
    java_dir_cleared_before_writes cfgJavaFile worldSample "java/pom.xml" "jaxb" (by decide)⟩

/-- C1 (code bug): with zero output-mode flags set and a valid input
file, `handleParameters` logs the configuration error but returns nil,
so the run proceeds, extraction IS attempted, and the process exits
with status 0; and with an output mode selected but the input argument
missing while standard input is not selected, the run prints the usage
message and exits with status 0, not a non-zero status. -/
theorem config_error_run_proceeds :
    (Event.logConfigError false ∈ (main cfgNoOutput worldSample).1 ∧
      Event.extractRun ∈ (main cfgNoOutput worldSample).1 ∧
      (main cfgNoOutput worldSample).2 = 0) ∧
    ((main cfgJavaFile worldNoArgs).1 = [Event.printUsage] ∧
      (main cfgJavaFile worldNoArgs).2 = 0 ∧
      Event.extractRun ∉ (main cfgJavaFile worldNoArgs).1) := by
  decide

end Chidley
